import Mathlib

/-!
# Verification of the `PullModel` streaming-download controller

This development embeds the retry/stream controller of
`client/client.go` (`PullModel`) together with the control-relevant part
of the UI collaborator (`ui/ui.go`) and the session loop (`main.go`)
as executable Lean functions, and proves the specification's invariants
and testable properties about them.

`PullModel` runs a retry loop.  Each iteration performs a non-blocking
select over {context done, user choice}, issues one HTTP request with a
30-second budget, and on success scans the response body line by line,
forwarding each parsed JSON record to the progress channel.  Timeouts
surface a `TimeoutMsg` and block on a user decision unless the
`continueUntilComplete` mode is on.  The nondeterministic inputs of one
execution (which select branch fired, the HTTP outcome, the scanned
lines, the decisions supplied) are collected in an environment, and the
embedding maps an environment to the exact sequence of channel actions
(sends, the close, and sleeps) the goroutine performs.
-/

namespace Client

/-- A decoded line of the `/api/pull` response stream
(struct `OllamaResponse` in `client.go`). -/
structure OllamaResponse where
  status : String
  digest : String
  total : Int
  completed : Int
deriving Repr, DecidableEq

/-- The messages `PullModel` sends on `progressCh`
(`ProgressMsg`, `TimeoutMsg`, `ErrorMsg` in `client.go`). -/
inductive TeaMsg where
  | ProgressMsg (Status : String) (Completed : Int) (Total : Int)
  | TimeoutMsg
  | ErrorMsg (Err : String)
deriving Repr, DecidableEq

/-- An observable action of the `PullModel` goroutine: a send on
`progressCh`, the close of `progressCh`, or a `time.Sleep` (seconds). -/
inductive Action where
  | send (m : TeaMsg)
  | close
  | sleep (seconds : Nat)
deriving Repr, DecidableEq

/-- Resolution of the non-blocking select at the top of the retry loop
(`client.go` lines 69-82): the `ctx.Done()` case, the `userChoiceCh`
case carrying a choice string, or the `default` case. -/
inductive TopSel where
  | ctxDone
  | choice (c : String)
  | deflt
deriving Repr, DecidableEq

/-- Resolution of a blocking select over `userChoiceCh` and `ctx.Done()`
(the wait after a surfaced `TimeoutMsg`, four textually identical
occurrences in `client.go`). -/
inductive WaitSel where
  | choice (c : String)
  | ctxDone
deriving Repr, DecidableEq

/-- One successful `scanner.Scan()` iteration: whether the per-line
select took the `ctx.Done()` case, the resolution of the decision wait
used when it did (and mode is interactive), and the result of
`json.Unmarshal` on the line (`none` = the line is not valid JSON). -/
structure ScanStep where
  ctxDone : Bool
  waitSel : WaitSel
  line : Option OllamaResponse
deriving Repr, DecidableEq

/-- Outcome of `client.Do` for one attempt: a response with status code
and body, a timeout error (`context.DeadlineExceeded` or a `net.Error`
timeout), or another transport error. -/
inductive DoResult where
  | ok (statusCode : Nat) (respBody : String)
  | errTimeout
  | errOther (e : String)
deriving Repr, DecidableEq

/-- Result of `scanner.Err()` after the scan loop ends. -/
inductive ScanErr where
  | none
  | deadline
  | other (e : String)
deriving Repr, DecidableEq

/-- The nondeterministic inputs consumed by one iteration of the retry
loop. -/
structure AttemptEnv where
  topSel : TopSel
  reqErr : Option String
  doResult : DoResult
  doWaitSel : WaitSel
  steps : List ScanStep
  scanErr : ScanErr
  errWaitSel : WaitSel
  endWaitSel : WaitSel
deriving Repr, DecidableEq

/-- The nondeterministic inputs of a whole `PullModel` execution.
`attempts` also serves as fuel: an execution that is still looping when
the list is exhausted is reported as unfinished. -/
structure PullEnv where
  marshalErr : Option String
  attempts : List AttemptEnv
deriving Repr, DecidableEq

/-- The mutable state of the retry loop: the `continueUntilComplete`
mode flag and the `downloadFinished` flag. -/
structure PullState where
  continueUntilComplete : Bool
  downloadFinished : Bool
deriving Repr, DecidableEq

/-- How the scan loop (`for scanner.Scan()`) ended: it ran out of lines,
or the goroutine returned from inside it (after closing the channel). -/
inductive ScanOutcome where
  | finished
  | returned
deriving Repr, DecidableEq

/-- Result of the scan loop: emitted actions, updated
`continueUntilComplete` and `downloadFinished`, and how it ended. -/
structure ScanResult where
  actions : List Action
  continueUntilComplete : Bool
  downloadFinished : Bool
  outcome : ScanOutcome
deriving Repr, DecidableEq

/-- How one retry-loop iteration ended: the goroutine returned, the
loop continued with a new state, or `break` was reached. -/
inductive IterOutcome where
  | returned
  | looped (s : PullState)
  | broke (s : PullState)
deriving Repr, DecidableEq

/-- Result of one retry-loop iteration. -/
structure IterResult where
  actions : List Action
  outcome : IterOutcome
deriving Repr, DecidableEq

/-- Whether a `PullModel` execution ran to completion (the goroutine
returned) or was still looping when the environment was exhausted. -/
inductive RunResult where
  | terminated
  | outOfAttempts (s : PullState)
deriving Repr, DecidableEq

/-- Result of a (partial) `PullModel` execution. -/
structure RunRes where
  actions : List Action
  result : RunResult
deriving Repr, DecidableEq

/-- The blocking select after a surfaced `TimeoutMsg` (`client.go`
lines 112-135, repeated verbatim at 165-188, 227-250 and 269-292):
`"Continue (until next error)"` loops with the state unchanged,
`"Continue (until download completed)"` sets `continueUntilComplete`
and loops, `"Quit"`, an unknown choice, and `ctx.Done()` all close the
channel and return.  Returns the emitted actions and `some` updated
state to continue with, or `none` when the goroutine returns. -/
def menuWait (w : WaitSel) (s : PullState) : List Action × Option PullState :=
  match w with
  | .choice c =>
    if c = "Continue (until next error)" then ([], some s)
    else if c = "Continue (until download completed)" then
      ([], some { s with continueUntilComplete := true })
    else ([Action.close], none)
  | .ctxDone => ([Action.close], none)

/-- The `for scanner.Scan()` loop (`client.go` lines 156-212).  For each
line a select is performed: if `ctx.Done()` is taken and mode is
interactive, a `TimeoutMsg` is sent and the decision wait runs (the
`continue` statements there target the scan loop); if `ctx.Done()` is
taken in auto-continue mode the code sleeps 5 seconds and continues the
scan loop; otherwise the line is unmarshalled — a failure skips the
line, a parsed record sets `downloadFinished` when its status is
`"success"` and is forwarded as a `ProgressMsg`. -/
def scanLoop : List ScanStep → Bool → Bool → ScanResult
  | [], cUC, df => ⟨[], cUC, df, .finished⟩
  | step :: rest, cUC, df =>
    if step.ctxDone then
      if cUC = false then
        match menuWait step.waitSel ⟨cUC, df⟩ with
        | (ms, some s2) =>
          let r := scanLoop rest s2.continueUntilComplete s2.downloadFinished
          ⟨Action.send TeaMsg.TimeoutMsg :: ms ++ r.actions,
            r.continueUntilComplete, r.downloadFinished, r.outcome⟩
        | (ms, none) =>
          ⟨Action.send TeaMsg.TimeoutMsg :: ms, cUC, df, .returned⟩
      else
        let r := scanLoop rest cUC df
        ⟨Action.sleep 5 :: r.actions,
          r.continueUntilComplete, r.downloadFinished, r.outcome⟩
    else
      match step.line with
      | none => scanLoop rest cUC df
      | some rec =>
        let df2 := if rec.status = "success" then true else df
        let r := scanLoop rest cUC df2
        ⟨Action.send (TeaMsg.ProgressMsg rec.status rec.completed rec.total) :: r.actions,
          r.continueUntilComplete, r.downloadFinished, r.outcome⟩

/-- The body of one retry-loop iteration after the top-of-loop select
(`client.go` lines 84-295): request creation, `client.Do`
classification, status-code check, the scan loop, `scanner.Err()`
classification, and the end-of-stream handling. -/
def runAttemptBody (a : AttemptEnv) (s : PullState) : IterResult :=
  match a.reqErr with
  | some e =>
    ⟨[Action.send (TeaMsg.ErrorMsg ("error creating request: " ++ e)), Action.close],
      .returned⟩
  | none =>
    match a.doResult with
    | .errTimeout =>
      if s.continueUntilComplete then ⟨[Action.sleep 5], .looped s⟩
      else
        match menuWait a.doWaitSel s with
        | (ms, some s2) => ⟨Action.send TeaMsg.TimeoutMsg :: ms, .looped s2⟩
        | (ms, none) => ⟨Action.send TeaMsg.TimeoutMsg :: ms, .returned⟩
    | .errOther e =>
      ⟨[Action.send (TeaMsg.ErrorMsg ("error pulling model: " ++ e)), Action.close],
        .returned⟩
    | .ok statusCode respBody =>
      if statusCode ≠ 200 then
        ⟨[Action.send (TeaMsg.ErrorMsg
            ("ollama API returned status " ++ toString statusCode ++ ": " ++ respBody)),
          Action.close], .returned⟩
      else
        let r := scanLoop a.steps s.continueUntilComplete s.downloadFinished
        match r.outcome with
        | .returned => ⟨r.actions, .returned⟩
        | .finished =>
          let s2 : PullState := ⟨r.continueUntilComplete, r.downloadFinished⟩
          match a.scanErr with
          | .deadline =>
            if s2.continueUntilComplete then
              ⟨r.actions ++ [Action.sleep 5], .looped s2⟩
            else
              match menuWait a.errWaitSel s2 with
              | (ms, some s3) =>
                ⟨r.actions ++ Action.send TeaMsg.TimeoutMsg :: ms, .looped s3⟩
              | (ms, none) =>
                ⟨r.actions ++ Action.send TeaMsg.TimeoutMsg :: ms, .returned⟩
          | .other e =>
            ⟨r.actions ++
              [Action.send (TeaMsg.ErrorMsg ("error reading response: " ++ e)), Action.close],
              .returned⟩
          | .none =>
            if s2.downloadFinished then ⟨r.actions, .broke s2⟩
            else if s2.continueUntilComplete = false then
              match menuWait a.endWaitSel s2 with
              | (ms, some s3) =>
                ⟨r.actions ++ Action.send TeaMsg.TimeoutMsg :: ms, .looped s3⟩
              | (ms, none) =>
                ⟨r.actions ++ Action.send TeaMsg.TimeoutMsg :: ms, .returned⟩
            else ⟨r.actions, .looped s2⟩

/-- One full iteration of the retry loop, starting with the
non-blocking top-of-loop select (`client.go` lines 69-82): `ctx.Done()`
closes and returns; a received `"Quit"` choice closes and returns; any
other received choice falls through to the attempt body, exactly like
the `default` case. -/
def runIteration (a : AttemptEnv) (s : PullState) : IterResult :=
  match a.topSel with
  | .ctxDone => ⟨[Action.close], .returned⟩
  | .choice c =>
    if c = "Quit" then ⟨[Action.close], .returned⟩
    else runAttemptBody a s
  | .deflt => runAttemptBody a s

/-- The retry loop (`for { ... }` in `client.go`) followed by the
post-loop `if downloadFinished { close(progressCh) }` when the loop is
left by `break`.  The attempt list is the fuel. -/
def runLoop : List AttemptEnv → PullState → RunRes
  | [], s => ⟨[], .outOfAttempts s⟩
  | a :: rest, s =>
    match runIteration a s with
    | ⟨as, .returned⟩ => ⟨as, .terminated⟩
    | ⟨as, .broke s2⟩ =>
      if s2.downloadFinished then ⟨as ++ [Action.close], .terminated⟩
      else ⟨as, .terminated⟩
    | ⟨as, .looped s2⟩ =>
      let r := runLoop rest s2
      ⟨as ++ r.actions, r.result⟩

/-- The `PullModel` goroutine (`client.go` lines 45-303): marshal the
request (an error sends one `ErrorMsg` and closes), then run the retry
loop with `downloadFinished` initially false. -/
def PullModel (env : PullEnv) (continueUntilComplete : Bool) : RunRes :=
  match env.marshalErr with
  | some e =>
    ⟨[Action.send (TeaMsg.ErrorMsg ("error marshalling request: " ++ e)), Action.close],
      .terminated⟩
  | none => runLoop env.attempts ⟨continueUntilComplete, false⟩

/-- Recognizer: the action is the close of `progressCh`. -/
def isClose : Action → Bool
  | .close => true
  | _ => false

/-- Recognizer: the action sends an `ErrorMsg`. -/
def isErrorSend : Action → Bool
  | .send (.ErrorMsg _) => true
  | _ => false

/-- Recognizer: the action sends a `TimeoutMsg`. -/
def isTimeoutSend : Action → Bool
  | .send .TimeoutMsg => true
  | _ => false

/-- Recognizer: the action sends a `ProgressMsg`. -/
def isProgressSend : Action → Bool
  | .send (.ProgressMsg _ _ _) => true
  | _ => false

/-- Recognizer: the action is a `time.Sleep`. -/
def isSleep : Action → Bool
  | .sleep _ => true
  | _ => false

/-- Number of closes of `progressCh` in a trace. -/
def closeCount (as : List Action) : Nat := as.countP isClose

/-- Number of `ErrorMsg` sends in a trace. -/
def errCount (as : List Action) : Nat := as.countP isErrorSend

/-- Number of `TimeoutMsg` sends in a trace. -/
def timeoutCount (as : List Action) : Nat := as.countP isTimeoutSend

/-- Number of `time.Sleep` calls in a trace. -/
def sleepCount (as : List Action) : Nat := as.countP isSleep

/-- Holds when every `ErrorMsg` send in the trace is immediately
followed by the close of the channel and by nothing else. -/
def errTerm : List Action → Bool
  | [] => true
  | Action.send (TeaMsg.ErrorMsg _) :: rest => rest == [Action.close]
  | _ :: rest => errTerm rest

/-- The `ProgressMsg` sends produced by forwarding the parsed lines of
a list of scan steps, in order; lines that fail to parse contribute
nothing. -/
def progressActions (steps : List ScanStep) : List Action :=
  steps.filterMap fun st =>
    st.line.map fun rec =>
      Action.send (TeaMsg.ProgressMsg rec.status rec.completed rec.total)

/-- Whether some step carries a record whose status is `"success"`. -/
def hasSuccess (steps : List ScanStep) : Bool :=
  steps.any fun st =>
    match st.line with
    | some rec => rec.status = "success"
    | none => false

/-- The retry-loop states at the entry of each executed iteration,
following the control flow of `runLoop`. -/
def iterStates : List AttemptEnv → PullState → List PullState
  | [], s => [s]
  | a :: rest, s =>
    match (runIteration a s).outcome with
    | .returned => [s]
    | .broke _ => [s]
    | .looped s2 => s :: iterStates rest s2

@[simp] theorem errTerm_nil : errTerm [] = true := rfl

@[simp] theorem errTerm_cons_progress (a : String) (b c : Int) (as : List Action) :
    errTerm (Action.send (TeaMsg.ProgressMsg a b c) :: as) = errTerm as := rfl

@[simp] theorem errTerm_cons_timeout (as : List Action) :
    errTerm (Action.send TeaMsg.TimeoutMsg :: as) = errTerm as := rfl

@[simp] theorem errTerm_cons_close (as : List Action) :
    errTerm (Action.close :: as) = errTerm as := rfl

@[simp] theorem errTerm_cons_sleep (n : Nat) (as : List Action) :
    errTerm (Action.sleep n :: as) = errTerm as := rfl

@[simp] theorem errTerm_cons_err (e : String) (as : List Action) :
    errTerm (Action.send (TeaMsg.ErrorMsg e) :: as) = (as == [Action.close]) := rfl

@[simp] theorem closeCount_nil : closeCount [] = 0 := rfl

@[simp] theorem closeCount_cons (a : Action) (as : List Action) :
    closeCount (a :: as) = closeCount as + (if isClose a then 1 else 0) := by
  simp [closeCount, List.countP_cons]

@[simp] theorem closeCount_append (as bs : List Action) :
    closeCount (as ++ bs) = closeCount as + closeCount bs := by
  simp [closeCount, List.countP_append]

@[simp] theorem errCount_nil : errCount [] = 0 := rfl

@[simp] theorem errCount_cons (a : Action) (as : List Action) :
    errCount (a :: as) = errCount as + (if isErrorSend a then 1 else 0) := by
  simp [errCount, List.countP_cons]

@[simp] theorem errCount_append (as bs : List Action) :
    errCount (as ++ bs) = errCount as + errCount bs := by
  simp [errCount, List.countP_append]

@[simp] theorem timeoutCount_nil : timeoutCount [] = 0 := rfl

@[simp] theorem timeoutCount_cons (a : Action) (as : List Action) :
    timeoutCount (a :: as) = timeoutCount as + (if isTimeoutSend a then 1 else 0) := by
  simp [timeoutCount, List.countP_cons]

@[simp] theorem timeoutCount_append (as bs : List Action) :
    timeoutCount (as ++ bs) = timeoutCount as + timeoutCount bs := by
  simp [timeoutCount, List.countP_append]

@[simp] theorem sleepCount_nil : sleepCount [] = 0 := rfl

@[simp] theorem sleepCount_cons (a : Action) (as : List Action) :
    sleepCount (a :: as) = sleepCount as + (if isSleep a then 1 else 0) := by
  simp [sleepCount, List.countP_cons]

@[simp] theorem sleepCount_append (as bs : List Action) :
    sleepCount (as ++ bs) = sleepCount as + sleepCount bs := by
  simp [sleepCount, List.countP_append]

/-- A trace without `ErrorMsg` sends vacuously satisfies `errTerm`. -/
theorem errTerm_of_errCount_zero (as : List Action) (h : errCount as = 0) :
    errTerm as = true := by
  induction as with
  | nil => rfl
  | cons a rest ih =>
    cases a with
    | close =>
      simp only [errTerm_cons_close]
      exact ih (by simpa [errCount, List.countP_cons, isErrorSend] using h)
    | sleep n =>
      simp only [errTerm_cons_sleep]
      exact ih (by simpa [errCount, List.countP_cons, isErrorSend] using h)
    | send m =>
      cases m with
      | ProgressMsg x y z =>
        simp only [errTerm_cons_progress]
        exact ih (by simpa [errCount, List.countP_cons, isErrorSend] using h)
      | TimeoutMsg =>
        simp only [errTerm_cons_timeout]
        exact ih (by simpa [errCount, List.countP_cons, isErrorSend] using h)
      | ErrorMsg e => simp [errCount, List.countP_cons, isErrorSend] at h

/-- Appending after an error-free prefix preserves `errTerm` facts. -/
theorem errTerm_append_of_errCount_zero (as bs : List Action) (h : errCount as = 0) :
    errTerm (as ++ bs) = errTerm bs := by
  induction as with
  | nil => rfl
  | cons a rest ih =>
    cases a with
    | close =>
      simp only [List.cons_append, errTerm_cons_close]
      exact ih (by simpa [errCount, List.countP_cons, isErrorSend] using h)
    | sleep n =>
      simp only [List.cons_append, errTerm_cons_sleep]
      exact ih (by simpa [errCount, List.countP_cons, isErrorSend] using h)
    | send m =>
      cases m with
      | ProgressMsg x y z =>
        simp only [List.cons_append, errTerm_cons_progress]
        exact ih (by simpa [errCount, List.countP_cons, isErrorSend] using h)
      | TimeoutMsg =>
        simp only [List.cons_append, errTerm_cons_timeout]
        exact ih (by simpa [errCount, List.countP_cons, isErrorSend] using h)
      | ErrorMsg e => simp [errCount, List.countP_cons, isErrorSend] at h

/-- In a trace satisfying `errTerm`, whatever follows an `ErrorMsg` send
is exactly the close of the channel. -/
theorem errTerm_split (as : List Action) (h : errTerm as = true) :
    ∀ pre e post, as = pre ++ Action.send (TeaMsg.ErrorMsg e) :: post →
      post = [Action.close] := by
  induction as with
  | nil =>
    intro pre e post hsplit
    exact absurd hsplit (by simp)
  | cons a rest ih =>
    intro pre e post hsplit
    cases pre with
    | nil =>
      simp only [List.nil_append] at hsplit
      injection hsplit with ha hrest
      subst ha; subst hrest
      simpa using h
    | cons p pre2 =>
      simp only [List.cons_append] at hsplit
      injection hsplit with ha hrest
      subst ha
      cases a with
      | close => exact ih (by simpa using h) pre2 e post hrest
      | sleep n => exact ih (by simpa using h) pre2 e post hrest
      | send m =>
        cases m with
        | ProgressMsg x y z => exact ih (by simpa using h) pre2 e post hrest
        | TimeoutMsg => exact ih (by simpa using h) pre2 e post hrest
        | ErrorMsg e2 =>
          exfalso
          have hr : rest = [Action.close] := by simpa using h
          have hmem : Action.send (TeaMsg.ErrorMsg e) ∈ rest := by
            rw [hrest]; exact List.mem_append_right _ (List.mem_cons_self _ _)
          rw [hr] at hmem
          simp at hmem

/-- A trace satisfying `errTerm` carries at most one `ErrorMsg`. -/
theorem errTerm_errCount_le_one (as : List Action) (h : errTerm as = true) :
    errCount as ≤ 1 := by
  induction as with
  | nil => simp [errCount]
  | cons a rest ih =>
    match a with
    | .close => simpa [errCount, List.countP_cons, isClose, isErrorSend] using ih (by simpa using h)
    | .sleep n => simpa [errCount, List.countP_cons, isErrorSend] using ih (by simpa using h)
    | .send (.ProgressMsg x y z) =>
      simpa [errCount, List.countP_cons, isErrorSend] using ih (by simpa using h)
    | .send .TimeoutMsg =>
      simpa [errCount, List.countP_cons, isErrorSend] using ih (by simpa using h)
    | .send (.ErrorMsg e) =>
      have hr : rest = [Action.close] := by simpa using h
      subst hr
      simp [errCount, List.countP_cons, isErrorSend, isClose]

/-- The scan loop never sends an `ErrorMsg`: decode failures are
skipped, and the only terminal events it can produce are a `TimeoutMsg`
and the close. -/
theorem scanLoop_errCount (steps : List ScanStep) :
    ∀ cUC df, errCount (scanLoop steps cUC df).actions = 0 := by
  induction steps with
  | nil => intro cUC df; simp [scanLoop]
  | cons step rest ih =>
    intro cUC df
    obtain ⟨ctx, w, l⟩ := step
    cases ctx with
    | false =>
      cases l with
      | none => simpa [scanLoop] using ih cUC df
      | some rec => simp [scanLoop, isErrorSend, ih]
    | true =>
      cases cUC with
      | true => simp [scanLoop, isErrorSend, ih]
      | false =>
        cases w with
        | ctxDone => simp [scanLoop, menuWait, isErrorSend]
        | choice c =>
          by_cases h1 : c = "Continue (until next error)"
          · simp [scanLoop, menuWait, h1, isErrorSend, ih]
          · by_cases h2 : c = "Continue (until download completed)"
            · simp [scanLoop, menuWait, h1, h2, isErrorSend, ih]
            · simp [scanLoop, menuWait, h1, h2, isErrorSend]

/-- In auto-continue mode the scan loop keeps the mode on, always runs
to the end of the stream, and never surfaces a `TimeoutMsg` nor closes
the channel. -/
theorem scanLoop_auto (steps : List ScanStep) :
    ∀ df, (scanLoop steps true df).continueUntilComplete = true ∧
      (scanLoop steps true df).outcome = .finished ∧
      timeoutCount (scanLoop steps true df).actions = 0 ∧
      closeCount (scanLoop steps true df).actions = 0 := by
  induction steps with
  | nil => intro df; simp [scanLoop]
  | cons step rest ih =>
    intro df
    obtain ⟨ctx, w, l⟩ := step
    cases ctx with
    | false =>
      cases l with
      | none => simpa [scanLoop] using ih df
      | some rec =>
        by_cases hs : rec.status = "success"
        · have h := ih true
          simp [scanLoop, hs, isTimeoutSend, isClose]
          tauto
        · have h := ih df
          simp [scanLoop, hs, isTimeoutSend, isClose]
          tauto
    | true =>
      have h := ih df
      simp [scanLoop, isTimeoutSend, isClose]
      tauto

/-- Channel-close accounting for the scan loop: a loop that ran out of
lines closed nothing; a loop from which the goroutine returned emitted
some closeless prefix, then exactly a `TimeoutMsg` and the close. -/
theorem scanLoop_closes (steps : List ScanStep) :
    ∀ cUC df, ((scanLoop steps cUC df).outcome = .finished →
        closeCount (scanLoop steps cUC df).actions = 0) ∧
      ((scanLoop steps cUC df).outcome = .returned →
        ∃ pre, (scanLoop steps cUC df).actions =
            pre ++ [Action.send TeaMsg.TimeoutMsg, Action.close] ∧
          closeCount pre = 0) := by
  induction steps with
  | nil => intro cUC df; simp [scanLoop]
  | cons step rest ih =>
    intro cUC df
    obtain ⟨ctx, w, l⟩ := step
    cases ctx with
    | false =>
      cases l with
      | none => simpa [scanLoop] using ih cUC df
      | some rec =>
        set df2 := if rec.status = "success" then true else df with hdf2
        obtain ⟨ihf, ihr⟩ := ih cUC df2
        constructor
        · intro ho
          simp only [scanLoop] at ho ⊢
          simp_all [isClose]
        · intro ho
          simp only [scanLoop] at ho ⊢
          obtain ⟨pre, hpre, hc⟩ := ihr (by simp_all)
          exact ⟨Action.send (TeaMsg.ProgressMsg rec.status rec.completed rec.total) :: pre,
            by simp_all [isClose], by simp_all [isClose]⟩
    | true =>
      cases cUC with
      | true =>
        obtain ⟨ihf, ihr⟩ := ih true df
        constructor
        · intro ho
          simp only [scanLoop] at ho ⊢
          simp_all [isClose]
        · intro ho
          simp only [scanLoop] at ho ⊢
          obtain ⟨pre, hpre, hc⟩ := ihr (by simp_all)
          exact ⟨Action.sleep 5 :: pre, by simp_all [isClose], by simp_all [isClose]⟩
      | false =>
        cases w with
        | ctxDone =>
          constructor
          · intro ho; simp [scanLoop, menuWait] at ho
          · intro ho
            exact ⟨[], by simp [scanLoop, menuWait], rfl⟩
        | choice c =>
          by_cases h1 : c = "Continue (until next error)"
          · obtain ⟨ihf, ihr⟩ := ih false df
            constructor
            · intro ho
              simp only [scanLoop, menuWait, h1] at ho ⊢
              simp_all [isClose]
            · intro ho
              simp only [scanLoop, menuWait, h1] at ho ⊢
              obtain ⟨pre, hpre, hc⟩ := ihr (by simp_all)
              exact ⟨Action.send TeaMsg.TimeoutMsg :: pre,
                by simp_all [isClose], by simp_all [isClose]⟩
          · by_cases h2 : c = "Continue (until download completed)"
            · obtain ⟨ihf, ihr⟩ := ih true df
              constructor
              · intro ho
                simp only [scanLoop, menuWait, h1, h2] at ho ⊢
                simp_all [isClose]
              · intro ho
                simp only [scanLoop, menuWait, h1, h2] at ho ⊢
                obtain ⟨pre, hpre, hc⟩ := ihr (by simp_all)
                exact ⟨Action.send TeaMsg.TimeoutMsg :: pre,
                  by simp_all [isClose], by simp_all [isClose]⟩
            · constructor
              · intro ho; simp [scanLoop, menuWait, h1, h2] at ho
              · intro ho
                exact ⟨[], by simp [scanLoop, menuWait, h1, h2], rfl⟩

/-- When the per-line select never takes the `ctx.Done()` branch, the
scan loop forwards exactly the parsed lines in order, leaves the mode
flag unchanged, runs to the end of the stream, and sets
`downloadFinished` exactly when some record has status `"success"`. -/
theorem scanLoop_noCtx (steps : List ScanStep) :
    ∀ cUC df, (∀ st ∈ steps, st.ctxDone = false) →
      scanLoop steps cUC df =
        ⟨progressActions steps, cUC, df || hasSuccess steps, .finished⟩ := by
  induction steps with
  | nil => intro cUC df _; simp [scanLoop, progressActions, hasSuccess]
  | cons step rest ih =>
    intro cUC df hctx
    have hstep : step.ctxDone = false := hctx step (List.mem_cons_self _ _)
    have hrest : ∀ st ∈ rest, st.ctxDone = false :=
      fun st hst => hctx st (List.mem_cons_of_mem _ hst)
    obtain ⟨ctx, w, l⟩ := step
    simp only [ScanStep.ctxDone] at hstep
    subst hstep
    cases l with
    | none => simpa [scanLoop, progressActions, hasSuccess] using ih cUC df hrest
    | some rec =>
      by_cases hs : rec.status = "success"
      · simp [scanLoop, hs, ih true, ih _ _ hrest, progressActions, hasSuccess]
      · simp [scanLoop, hs, ih _ _ hrest, progressActions, hasSuccess]

/-- Complete case analysis of the decision wait: the two continue
choices emit nothing and yield the unchanged state or the state with
auto-continue mode set; everything else closes the channel and makes
the goroutine return. -/
theorem menuWait_cases (w : WaitSel) (s : PullState) :
    menuWait w s = ([], some s) ∨
    menuWait w s = ([], some { s with continueUntilComplete := true }) ∨
    menuWait w s = ([Action.close], none) := by
  cases w with
  | ctxDone => simp [menuWait]
  | choice c =>
    by_cases h1 : c = "Continue (until next error)"
    · simp [menuWait, h1]
    · by_cases h2 : c = "Continue (until download completed)"
      · simp [menuWait, h1, h2]
      · simp [menuWait, h1, h2]

/-- The last element of a trace extended by two terminal actions. -/
theorem getLast_append_pair (as : List Action) (x y : Action) :
    (as ++ [x, y]).getLast? = some y := by
  rw [List.getLast?_append_of_ne_nil _ (by simp)]
  rfl

/-- The per-iteration bookkeeping invariant: a continued or broken
iteration closed nothing and sent no `ErrorMsg` (and `break` implies
the download finished); a returning iteration closed exactly once, with
the close last, and any `ErrorMsg` immediately followed by the close;
in all cases auto-continue mode is preserved and silences timeouts. -/
def IterOK (s : PullState) (r : IterResult) : Prop :=
  match r.outcome with
  | .looped s2 =>
      closeCount r.actions = 0 ∧ errCount r.actions = 0 ∧
      (s.continueUntilComplete = true →
        s2.continueUntilComplete = true ∧ timeoutCount r.actions = 0)
  | .broke s2 =>
      closeCount r.actions = 0 ∧ errCount r.actions = 0 ∧
      s2.downloadFinished = true ∧
      (s.continueUntilComplete = true →
        s2.continueUntilComplete = true ∧ timeoutCount r.actions = 0)
  | .returned =>
      closeCount r.actions = 1 ∧ r.actions.getLast? = some Action.close ∧
      errTerm r.actions = true ∧
      (s.continueUntilComplete = true → timeoutCount r.actions = 0)

/-- The attempt body satisfies the per-iteration invariant. -/
theorem runAttemptBody_ok (a : AttemptEnv) (s : PullState) :
    IterOK s (runAttemptBody a s) := by
  obtain ⟨ts, re, dr, dw, steps, se, ew, endw⟩ := a
  obtain ⟨cu, df⟩ := s
  cases re with
  | some e => simp [runAttemptBody, IterOK, isClose, isErrorSend, isTimeoutSend]
  | none =>
    cases dr with
    | errOther e => simp [runAttemptBody, IterOK, isClose, isErrorSend, isTimeoutSend]
    | errTimeout =>
      cases cu with
      | true => simp [runAttemptBody, IterOK, isClose, isErrorSend, isSleep, isTimeoutSend]
      | false =>
        rcases menuWait_cases dw ⟨false, df⟩ with h | h | h <;>
          simp [runAttemptBody, IterOK, h, isClose, isErrorSend, isTimeoutSend]
    | ok statusCode respBody =>
      by_cases hcode : statusCode = 200
      case neg =>
        simp [runAttemptBody, IterOK, hcode, isClose, isErrorSend, isTimeoutSend]
      case pos =>
        subst hcode
        cases cu with
        | true =>
          obtain ⟨hcu, hout, htim, hcl⟩ := scanLoop_auto steps df
          have herr := scanLoop_errCount steps true df
          cases se with
          | deadline =>
            simp [runAttemptBody, IterOK, hout, hcu, htim, hcl, herr, isClose,
              isErrorSend, isSleep, isTimeoutSend]
          | other e =>
            simp [runAttemptBody, IterOK, hout, hcu, htim, hcl, herr, isClose,
              isErrorSend, isTimeoutSend, errTerm_append_of_errCount_zero _ _ herr,
              getLast_append_pair]
          | none =>
            cases hdf2 : (scanLoop steps true df).downloadFinished with
            | true =>
              simp [runAttemptBody, IterOK, hout, hdf2, hcu, htim, hcl, herr, isClose,
                isErrorSend]
            | false =>
              simp [runAttemptBody, IterOK, hout, hdf2, hcu, htim, hcl, herr, isClose,
                isErrorSend]
        | false =>
          have herr := scanLoop_errCount steps false df
          obtain ⟨hfin, hret⟩ := scanLoop_closes steps false df
          cases ho : (scanLoop steps false df).outcome with
          | returned =>
            obtain ⟨pre, hpre, hc⟩ := hret ho
            have hc1 : closeCount (pre ++ [Action.send TeaMsg.TimeoutMsg, Action.close]) = 1 := by
              simp [hc, isClose]
            have hterm : errTerm (pre ++ [Action.send TeaMsg.TimeoutMsg, Action.close]) = true := by
              rw [← hpre]; exact errTerm_of_errCount_zero _ herr
            simp [runAttemptBody, IterOK, ho, hpre, hc1, hterm, getLast_append_pair]
          | finished =>
            have hc0 := hfin ho
            cases se with
            | deadline =>
              cases hc2 : (scanLoop steps false df).continueUntilComplete with
              | true =>
                simp [runAttemptBody, IterOK, ho, hc2, hc0, herr, isClose, isErrorSend]
              | false =>
                rcases menuWait_cases ew ⟨false, (scanLoop steps false df).downloadFinished⟩
                    with h | h | h <;>
                  simp [runAttemptBody, IterOK, ho, hc2, hc0, herr, h, isClose,
                    isErrorSend, errTerm_append_of_errCount_zero _ _ herr,
                    getLast_append_pair]
            | other e =>
              simp [runAttemptBody, IterOK, ho, hc0, herr, isClose, isErrorSend,
                errTerm_append_of_errCount_zero _ _ herr, getLast_append_pair]
            | none =>
              cases hdf2 : (scanLoop steps false df).downloadFinished with
              | true =>
                simp [runAttemptBody, IterOK, ho, hdf2, hc0, herr, isClose, isErrorSend]
              | false =>
                cases hc2 : (scanLoop steps false df).continueUntilComplete with
                | true =>
                  simp [runAttemptBody, IterOK, ho, hdf2, hc2, hc0, herr, isClose,
                    isErrorSend]
                | false =>
                  rcases menuWait_cases endw ⟨false, false⟩ with h | h | h <;>
                    simp [runAttemptBody, IterOK, ho, hdf2, hc2, hc0, herr, h, isClose,
                      isErrorSend, errTerm_append_of_errCount_zero _ _ herr,
                      getLast_append_pair]

/-- A full retry-loop iteration satisfies the per-iteration invariant. -/
theorem runIteration_ok (a : AttemptEnv) (s : PullState) :
    IterOK s (runIteration a s) := by
  cases hts : a.topSel with
  | ctxDone => simp [runIteration, hts, IterOK, isClose, isTimeoutSend]
  | deflt => simpa [runIteration, hts] using runAttemptBody_ok a s
  | choice c =>
    by_cases hq : c = "Quit"
    · simp [runIteration, hts, hq, IterOK, isClose, isTimeoutSend]
    · simpa [runIteration, hts, hq] using runAttemptBody_ok a s

/-- The global bookkeeping facts of the retry loop: every `ErrorMsg` is
immediately followed by the close and nothing else; a terminated run
closed exactly once with the close as the last action; an unfinished
run has not closed and preserves auto-continue mode; and a run entered
in auto-continue mode never surfaces a `TimeoutMsg`. -/
theorem runLoop_spec (atts : List AttemptEnv) :
    ∀ s, errTerm (runLoop atts s).actions = true ∧
      ((runLoop atts s).result = .terminated →
        closeCount (runLoop atts s).actions = 1 ∧
        (runLoop atts s).actions.getLast? = some Action.close) ∧
      (∀ s2, (runLoop atts s).result = .outOfAttempts s2 →
        closeCount (runLoop atts s).actions = 0 ∧
        (s.continueUntilComplete = true → s2.continueUntilComplete = true)) ∧
      (s.continueUntilComplete = true → timeoutCount (runLoop atts s).actions = 0) := by
  induction atts with
  | nil => intro s; simp [runLoop]
  | cons a rest ih =>
    intro s
    have hok := runIteration_ok a s
    rcases hr : runIteration a s with ⟨as, o⟩
    rw [hr] at hok
    cases o with
    | returned =>
      simp only [IterOK] at hok
      obtain ⟨hc, hl, he, ht⟩ := hok
      have hrun : runLoop (a :: rest) s = ⟨as, .terminated⟩ := by
        simp [runLoop, hr]
      rw [hrun]
      exact ⟨he, fun _ => ⟨hc, hl⟩, fun s2 h2 => by simp at h2, fun hcu => ht hcu⟩
    | broke s2 =>
      simp only [IterOK] at hok
      obtain ⟨hc, he, hdf, himp⟩ := hok
      have hrun : runLoop (a :: rest) s = ⟨as ++ [Action.close], .terminated⟩ := by
        simp [runLoop, hr, hdf]
      rw [hrun]
      refine ⟨?_, fun _ => ⟨by simp [hc, isClose], ?_⟩, fun s3 h3 => by simp at h3, ?_⟩
      · rw [errTerm_append_of_errCount_zero _ _ he]; rfl
      · rw [List.getLast?_append_of_ne_nil _ (by simp)]; rfl
      · intro hcu
        simp [isTimeoutSend, (himp hcu).2]
    | looped s2 =>
      simp only [IterOK] at hok
      obtain ⟨hc, he, himp⟩ := hok
      obtain ⟨ihe, ihterm, ihout, ihtime⟩ := ih s2
      have hrun : runLoop (a :: rest) s =
          ⟨as ++ (runLoop rest s2).actions, (runLoop rest s2).result⟩ := by
        simp [runLoop, hr]
      rw [hrun]
      refine ⟨?_, ?_, ?_, ?_⟩
      · rw [errTerm_append_of_errCount_zero _ _ he]; exact ihe
      · intro hterm2
        obtain ⟨ihc, ihl⟩ := ihterm hterm2
        refine ⟨by simp [hc, ihc], ?_⟩
        have hne : (runLoop rest s2).actions ≠ [] := by
          intro hnil; rw [hnil] at ihl; simp at ihl
        rw [List.getLast?_append_of_ne_nil _ hne]; exact ihl
      · intro s3 h3
        obtain ⟨ihc, ihmono⟩ := ihout s3 h3
        exact ⟨by simp [hc, ihc], fun hcu => ihmono ((himp hcu).1)⟩
      · intro hcu
        simp [(himp hcu).2, ihtime ((himp hcu).1)]

/-- A continued iteration preserves auto-continue mode. -/
theorem runIteration_looped_mono (a : AttemptEnv) (s s2 : PullState)
    (h : (runIteration a s).outcome = .looped s2)
    (hcu : s.continueUntilComplete = true) : s2.continueUntilComplete = true := by
  have hok := runIteration_ok a s
  rcases hr : runIteration a s with ⟨as, o⟩
  rw [hr] at hok h
  cases o with
  | returned => simp at h
  | broke s3 => simp at h
  | looped s3 =>
    simp only [IterOK] at hok
    have heq : s3 = s2 := by simpa using h
    subst heq
    exact (hok.2.2 hcu).1

/-- Auto-continue mode propagates to every later iteration-entry state. -/
theorem iterStates_all_mono (atts : List AttemptEnv) :
    ∀ s, s.continueUntilComplete = true →
      ∀ t ∈ iterStates atts s, t.continueUntilComplete = true := by
  induction atts with
  | nil =>
    intro s hs t ht
    simp only [iterStates, List.mem_singleton] at ht
    subst ht; exact hs
  | cons a rest ih =>
    intro s hs t ht
    simp only [iterStates] at ht
    cases ho : (runIteration a s).outcome with
    | returned =>
      rw [ho] at ht; simp only [List.mem_singleton] at ht; subst ht; exact hs
    | broke s2 =>
      rw [ho] at ht; simp only [List.mem_singleton] at ht; subst ht; exact hs
    | looped s2 =>
      rw [ho] at ht
      simp only [List.mem_cons] at ht
      rcases ht with rfl | ht
      · exact hs
      · exact ih s2 (runIteration_looped_mono a s s2 ho hs) t ht

/-- The iteration-entry states are pairwise monotone in the mode flag. -/
theorem iterStates_pairwise (atts : List AttemptEnv) :
    ∀ s, List.Pairwise
      (fun x y => x.continueUntilComplete = true → y.continueUntilComplete = true)
      (iterStates atts s) := by
  induction atts with
  | nil => intro s; simp [iterStates]
  | cons a rest ih =>
    intro s
    simp only [iterStates]
    cases ho : (runIteration a s).outcome with
    | returned => simp
    | broke s2 => simp
    | looped s2 =>
      refine List.Pairwise.cons ?_ (ih s2)
      intro t ht hs
      exact iterStates_all_mono rest s2 (runIteration_looped_mono a s s2 ho hs) t ht

end Client

namespace Ui

/-- The three menu items offered after a timeout (`ui.go` lines 76-80),
in the order the list component displays them. -/
def menuItems : List String :=
  ["Continue (until next error)", "Continue (until download completed)", "Quit"]

/-- The control-relevant fields of the Bubble Tea model (struct `Model`
in `ui.go`).  Rendering-only fields (progress bar, status text,
percentage, host, model name) are omitted; `cursor` is the selection
index of the embedded list component. -/
structure Model where
  quitting : Bool := false
  selectedChoice : String := ""
  showList : Bool := false
  cursor : Nat := 0
deriving Repr, DecidableEq

/-- An input processed by the UI: a message forwarded from the progress
channel, or a key press. -/
inductive Input where
  | msg (m : Client.TeaMsg)
  | key (k : String)
deriving Repr, DecidableEq

/-- One step of `Model.Update` (`ui.go` lines 107-171) restricted to the
control-relevant fields; the returned flag records whether the update
issued `tea.Quit`.  Keys `"q"`/`"ctrl+c"` select `"Quit"` and quit;
`"enter"` selects the highlighted menu item when the menu is shown and
quits; other keys reach the list component (cursor movement) only while
the menu is shown; a `TimeoutMsg` shows the menu; an `ErrorMsg` selects
`"Quit"` and quits; a `ProgressMsg` changes rendering state only. -/
def update (m : Model) (inp : Input) : Model × Bool :=
  match inp with
  | .key k =>
    if k = "q" ∨ k = "ctrl+c" then
      ({ m with quitting := true, selectedChoice := "Quit" }, true)
    else if k = "enter" then
      if m.showList then
        ({ m with selectedChoice := menuItems.getD m.cursor m.selectedChoice }, true)
      else (m, false)
    else if m.showList then
      if k = "down" ∨ k = "j" then
        ({ m with cursor := min (m.cursor + 1) (menuItems.length - 1) }, false)
      else if k = "up" ∨ k = "k" then
        ({ m with cursor := m.cursor - 1 }, false)
      else (m, false)
    else (m, false)
  | .msg .TimeoutMsg => ({ m with showList := true }, false)
  | .msg (.ErrorMsg _) => ({ m with selectedChoice := "Quit" }, true)
  | .msg (.ProgressMsg _ _ _) => (m, false)

/-- Run the UI over a list of inputs, stopping at the first update that
issues `tea.Quit`, as `tea.Program.Run` does. -/
def run (m : Model) : List Input → Model
  | [] => m
  | i :: rest =>
    match update m i with
    | (m2, true) => m2
    | (m2, false) => run m2 rest

/-- If the UI never receives a `TimeoutMsg` while the menu is hidden,
the menu is never shown, so the final selection can only be the initial
one or `"Quit"` (from the quit keys or an `ErrorMsg`). -/
theorem run_selected_no_timeout (ins : List Input) :
    ∀ m : Model, m.showList = false →
      (∀ i ∈ ins, i ≠ Input.msg Client.TeaMsg.TimeoutMsg) →
      (run m ins).selectedChoice = m.selectedChoice ∨
      (run m ins).selectedChoice = "Quit" := by
  induction ins with
  | nil => intro m _ _; left; rfl
  | cons i rest ih =>
    intro m hs hni
    have hni2 : ∀ x ∈ rest, x ≠ Input.msg Client.TeaMsg.TimeoutMsg :=
      fun x hx => hni x (List.mem_cons_of_mem _ hx)
    cases i with
    | msg m2 =>
      cases m2 with
      | TimeoutMsg => exact absurd rfl (hni _ (List.mem_cons_self _ _))
      | ErrorMsg e => right; simp [run, update]
      | ProgressMsg a b c => simpa [run, update] using ih m hs hni2
    | key k =>
      by_cases h1 : k = "q" ∨ k = "ctrl+c"
      · right; simp [run, update, h1]
      · by_cases h2 : k = "enter"
        · simpa [run, update, h1, h2, hs] using ih m hs hni2
        · simpa [run, update, h1, h2, hs] using ih m hs hni2

end Ui

namespace Main

/-- The `switch selectedChoice` at the bottom of the session loop in
`main.go` (lines 115-138): returns the new `continueUntilComplete` flag
and the `shouldQuit` flag.  `"Continue (until next error)"` resets the
mode flag to false, `"Continue (until download completed)"` sets it,
and both `"Quit"` and the default case end the session. -/
def choiceUpdate (continueUntilComplete : Bool) (selectedChoice : String) :
    Bool × Bool :=
  if selectedChoice = "Continue (until next error)" then (false, false)
  else if selectedChoice = "Continue (until download completed)" then (true, false)
  else if selectedChoice = "Quit" then (continueUntilComplete, true)
  else (continueUntilComplete, true)

end Main

namespace Client

/-! ## Concrete environments used by witnesses and counterexamples -/

/-- A mid-download record (total 100, completed 50). -/
def dlRec : OllamaResponse := ⟨"downloading", "", 100, 50⟩

/-- The terminal record with status `"success"`. -/
def successRec : OllamaResponse := ⟨"success", "", 100, 100⟩

/-- A scan step with no cancellation that parses to the given record. -/
def recStep (rec : OllamaResponse) : ScanStep := ⟨false, .ctxDone, some rec⟩

/-- An attempt whose request returns HTTP 200, streaming the given
steps with no read error. -/
def okAttempt (steps : List ScanStep) : AttemptEnv :=
  ⟨.deflt, none, .ok 200 "", .ctxDone, steps, .none, .ctxDone, .ctxDone⟩

/-- An attempt that times out in `client.Do` and is answered with the
single-retry choice. -/
def timeoutRetryOnceAttempt : AttemptEnv :=
  ⟨.deflt, none, .errTimeout, .choice "Continue (until next error)", [], .none, .ctxDone,
    .ctxDone⟩

/-- Cancellation observed at the first stream line, interactive mode,
with the decision wait resolved by the (already fired) context. -/
def cancelDuringStreamEnv : PullEnv :=
  ⟨none, [⟨.deflt, none, .ok 200 "", .ctxDone, [⟨true, .ctxDone, none⟩], .none, .ctxDone,
    .ctxDone⟩]⟩

/-- Cancellation observed at the first stream line in auto-continue
mode, with one more parsed record behind it in the scanner buffer. -/
def cancelAutoEnv : PullEnv :=
  ⟨none, [⟨.deflt, none, .ok 200 "", .ctxDone, [⟨true, .ctxDone, none⟩, recStep dlRec],
    .none, .ctxDone, .ctxDone⟩]⟩

/-- A stream carrying another record after the success record. -/
def successThenMoreEnv : PullEnv := ⟨none, [okAttempt [recStep successRec, recStep dlRec]]⟩

/-- A stream that ends without success, followed by a successful
attempt, in auto-continue mode. -/
def streamEndThenSuccessEnv : PullEnv :=
  ⟨none, [okAttempt [recStep dlRec], okAttempt [recStep successRec]]⟩

/-! ## Claims -/

/-- C1: on every exit path of the `PullModel` goroutine (success, fatal
error, user quit, unrecognized decision, cancellation) the progress
channel is closed exactly once: every trace holds at most one close,
every terminating trace holds exactly one close as its final action,
and a run that is still looping has not closed it. -/
theorem close_exactly_once (env : PullEnv) (c : Bool) :
    closeCount (PullModel env c).actions ≤ 1 ∧
    ((PullModel env c).result = .terminated →
      closeCount (PullModel env c).actions = 1 ∧
      (PullModel env c).actions.getLast? = some Action.close) ∧
    (∀ s2, (PullModel env c).result = .outOfAttempts s2 →
      closeCount (PullModel env c).actions = 0) := by
  obtain ⟨me, atts⟩ := env
  cases me with
  | some e =>
    exact ⟨by simp [PullModel, isClose], fun _ => ⟨by simp [PullModel, isClose], rfl⟩,
      fun s2 h2 => by simp [PullModel] at h2⟩
  | none =>
    have hP : PullModel ⟨none, atts⟩ c = runLoop atts ⟨c, false⟩ := rfl
    obtain ⟨_, hterm, hout, _⟩ := runLoop_spec atts ⟨c, false⟩
    rw [hP]
    refine ⟨?_, hterm, fun s2 h2 => (hout s2 h2).1⟩
    cases hres : (runLoop atts ⟨c, false⟩).result with
    | terminated => exact le_of_eq (hterm hres).1
    | outOfAttempts s2 => simp [(hout s2 hres).1]

/-- Witness for C1 at a concrete successful download. -/
theorem close_exactly_once_witness :
    (PullModel ⟨none, [okAttempt [recStep successRec]]⟩ false).result = .terminated ∧
    closeCount (PullModel ⟨none, [okAttempt [recStep successRec]]⟩ false).actions = 1 ∧
    (PullModel ⟨none, [okAttempt [recStep successRec]]⟩ false).actions.getLast? =
      some Action.close :=
  ⟨by decide,
    ((close_exactly_once ⟨none, [okAttempt [recStep successRec]]⟩ false).2.1 (by decide)).1,
    ((close_exactly_once ⟨none, [okAttempt [recStep successRec]]⟩ false).2.1 (by decide)).2⟩

/-- C2 (failing input): when the cancellation signal is observed at a
stream line in interactive mode, the code first sends a `TimeoutMsg` —
an event emitted after the cancellation was observed — and awaits a
decision before closing; in auto-continue mode it sleeps and keeps
forwarding records read after the cancellation was observed.  Both
traces contradict the claim that no event of any kind follows an
observed cancellation and that stream reading returns immediately. -/
theorem cancellation_observed_still_emits :
    (PullModel cancelDuringStreamEnv false).actions =
      [Action.send TeaMsg.TimeoutMsg, Action.close] ∧
    (PullModel cancelAutoEnv true).actions =
      [Action.sleep 5, Action.send (TeaMsg.ProgressMsg "downloading" 50 100)] := by
  constructor <;> rfl

/-- C3: a `TimeoutMsg` is only emitted while auto-continue mode is off —
from any state with the mode on, the rest of the run surfaces no
timeout at all (the mode itself is never reset, see the C8 theorem);
and in interactive mode with the consumer always answering the
single-retry choice, n timed-out attempts surface exactly n
`TimeoutMsg`s, one per attempt, never batched or suppressed. -/
theorem timeout_only_while_interactive :
    (∀ (atts : List AttemptEnv) (s : PullState), s.continueUntilComplete = true →
      timeoutCount (runLoop atts s).actions = 0) ∧
    (∀ n : Nat,
      (runLoop (List.replicate n timeoutRetryOnceAttempt) ⟨false, false⟩).actions =
        List.replicate n (Action.send TeaMsg.TimeoutMsg)) := by
  constructor
  · intro atts s hs
    exact (runLoop_spec atts s).2.2.2 hs
  · intro n
    induction n with
    | zero => rfl
    | succ k ih =>
      have h1 : runIteration timeoutRetryOnceAttempt ⟨false, false⟩ =
          ⟨[Action.send TeaMsg.TimeoutMsg], .looped ⟨false, false⟩⟩ := by decide
      simp [List.replicate_succ, runLoop, h1, ih]

/-- Witness for C3: one auto-mode attempt surfaces nothing, two
interactive timed-out attempts surface exactly two timeouts. -/
theorem timeout_only_while_interactive_witness :
    timeoutCount (runLoop [timeoutRetryOnceAttempt] ⟨true, false⟩).actions = 0 ∧
    (runLoop (List.replicate 2 timeoutRetryOnceAttempt) ⟨false, false⟩).actions =
      List.replicate 2 (Action.send TeaMsg.TimeoutMsg) :=
  ⟨timeout_only_while_interactive.1 [timeoutRetryOnceAttempt] ⟨true, false⟩ rfl,
    timeout_only_while_interactive.2 2⟩

/-- The attempt used by Scenario C: the endpoint answers HTTP 500. -/
def http500Attempt : AttemptEnv :=
  ⟨.deflt, none, .ok 500 "internal server error", .ctxDone, [], .none, .ctxDone, .ctxDone⟩

/-- C4: at most one `ErrorMsg` is ever delivered; whenever one is
delivered it is immediately followed by the close and nothing else; and
a non-success HTTP status yields exactly one `ErrorMsg` carrying the
status code and response body as diagnostic text, then the close, with
zero further attempts (the remaining attempt budget is discarded). -/
theorem error_event_is_terminal (env : PullEnv) (c : Bool) :
    errCount (PullModel env c).actions ≤ 1 ∧
    (∀ pre e post, (PullModel env c).actions =
      pre ++ Action.send (TeaMsg.ErrorMsg e) :: post → post = [Action.close]) ∧
    (∀ (s : PullState) (statusCode : Nat) (respBody : String) (a : AttemptEnv)
      (rest : List AttemptEnv),
      a.topSel = .deflt → a.reqErr = none → a.doResult = .ok statusCode respBody →
      statusCode ≠ 200 →
      runLoop (a :: rest) s =
        ⟨[Action.send (TeaMsg.ErrorMsg
            ("ollama API returned status " ++ toString statusCode ++ ": " ++ respBody)),
          Action.close], .terminated⟩) := by
  have hterm : errTerm (PullModel env c).actions = true := by
    obtain ⟨me, atts⟩ := env
    cases me with
    | some e => rfl
    | none => exact (runLoop_spec atts ⟨c, false⟩).1
  refine ⟨errTerm_errCount_le_one _ hterm, errTerm_split _ hterm, ?_⟩
  intro s statusCode respBody a rest h1 h2 h3 h4
  simp [runLoop, runIteration, runAttemptBody, h1, h2, h3, h4]

/-- Witness for C4 at Scenario C: HTTP 500 yields one `ErrorMsg` with
the status and body, then the close, and terminates. -/
theorem error_event_is_terminal_witness :
    runLoop [http500Attempt] ⟨false, false⟩ =
      ⟨[Action.send (TeaMsg.ErrorMsg
          ("ollama API returned status " ++ toString 500 ++ ": " ++ "internal server error")),
        Action.close], .terminated⟩ :=
  (error_event_is_terminal ⟨none, [http500Attempt]⟩ false).2.2 ⟨false, false⟩ 500
    "internal server error" http500Attempt [] rfl rfl rfl (by decide)

/-- Forwarded progress sends contain no sleep, timeout, error or close. -/
theorem progressActions_counts (steps : List ScanStep) :
    sleepCount (progressActions steps) = 0 ∧ timeoutCount (progressActions steps) = 0 ∧
    errCount (progressActions steps) = 0 ∧ closeCount (progressActions steps) = 0 := by
  induction steps with
  | nil => simp [progressActions]
  | cons st rest ih =>
    cases hl : st.line <;>
      simp [progressActions, List.filterMap_cons, hl, isSleep, isTimeoutSend,
        isErrorSend, isClose, progressActions] at ih ⊢ <;> exact ih

/-- C5 counterexample: in the concrete run over `successThenMoreEnv`
the success record is observed first and no cancellation occurs, yet a
further `ProgressMsg` (for the next record of the same stream) is
delivered after the completion record — the controller's next action
after observing success is not closure. -/
theorem progress_after_success_record :
    (PullModel successThenMoreEnv false).actions =
      [Action.send (TeaMsg.ProgressMsg "success" 100 100),
       Action.send (TeaMsg.ProgressMsg "downloading" 50 100),
       Action.close] ∧
    isProgressSend ((PullModel successThenMoreEnv false).actions.getD 1 Action.close) =
      true := by
  constructor <;> rfl

/-- C5 (amended): if a record with status `"success"` is observed and
the attempt's stream then reaches end-of-data with no read error and no
cancellation, then no further attempt is issued (the remaining attempt
budget is discarded), the run terminates, and the only action after the
attempt's forwarded records is the single close — in particular no
`ErrorMsg` and no `TimeoutMsg` follow, though records parsed after the
success record are still forwarded as `ProgressMsg`s before the
close. -/
theorem success_then_clean_end_closes (s : PullState) (a : AttemptEnv)
    (rest : List AttemptEnv) (respBody : String)
    (h1 : a.topSel = .deflt) (h2 : a.reqErr = none)
    (h3 : a.doResult = .ok 200 respBody)
    (h4 : ∀ st ∈ a.steps, st.ctxDone = false) (h5 : hasSuccess a.steps = true)
    (h6 : a.scanErr = .none) :
    runLoop (a :: rest) s = ⟨progressActions a.steps ++ [Action.close], .terminated⟩ := by
  have hscan := scanLoop_noCtx a.steps s.continueUntilComplete s.downloadFinished h4
  simp [runLoop, runIteration, runAttemptBody, h1, h2, h3, hscan, h5, h6]

/-- Witness for C5 (amended) at Scenario A's shape. -/
theorem success_then_clean_end_closes_witness :
    runLoop [okAttempt [recStep dlRec, recStep successRec]] ⟨false, false⟩ =
      ⟨progressActions [recStep dlRec, recStep successRec] ++ [Action.close],
        .terminated⟩ :=
  success_then_clean_end_closes ⟨false, false⟩
    (okAttempt [recStep dlRec, recStep successRec]) [] "" rfl rfl rfl (by decide)
    (by decide) rfl

/-- C6 counterexample: in auto-continue mode an attempt whose stream
ends without success is retried immediately — the concrete trace shows
the next attempt's records with no `time.Sleep` anywhere, so no short
fixed delay precedes the retry (the `Timeout` classifications, by
contrast, sleep 5 seconds before looping). -/
theorem stream_end_auto_retry_has_no_delay :
    (PullModel streamEndThenSuccessEnv true).actions =
      [Action.send (TeaMsg.ProgressMsg "downloading" 50 100),
       Action.send (TeaMsg.ProgressMsg "success" 100 100),
       Action.close] ∧
    sleepCount (PullModel streamEndThenSuccessEnv true).actions = 0 := by
  constructor <;> rfl

/-- C6 (amended): an attempt whose stream reaches end-of-data without a
success record and without a read error is never treated as fatal: in
interactive mode it is handled identically to a `Timeout` — the
iteration's trace is the forwarded records followed by exactly the
trace of a pure `client.Do`-timeout attempt whose decision wait is
resolved the same way, with the same outcome; in auto-continue mode the
controller loops again immediately, emitting nothing further — in
particular no delay (unlike `Timeout`, which sleeps 5 seconds). -/
theorem stream_end_without_success_behavior (s : PullState) (a b : AttemptEnv)
    (respBody : String)
    (h1 : a.topSel = .deflt) (h2 : a.reqErr = none)
    (h3 : a.doResult = .ok 200 respBody)
    (h4 : ∀ st ∈ a.steps, st.ctxDone = false) (h5 : hasSuccess a.steps = false)
    (h6 : a.scanErr = .none) (hdf : s.downloadFinished = false)
    (hb1 : b.topSel = .deflt) (hb2 : b.reqErr = none) (hb3 : b.doResult = .errTimeout)
    (hbw : b.doWaitSel = a.endWaitSel) :
    (s.continueUntilComplete = false →
      (runIteration a s).actions =
        progressActions a.steps ++ (runIteration b s).actions ∧
      (runIteration a s).outcome = (runIteration b s).outcome) ∧
    (s.continueUntilComplete = true →
      runIteration a s = ⟨progressActions a.steps, .looped ⟨true, false⟩⟩ ∧
      sleepCount (runIteration a s).actions = 0) := by
  obtain ⟨cu, df⟩ := s
  simp only at hdf
  subst hdf
  have hscan := scanLoop_noCtx a.steps cu false h4
  constructor
  · intro hcu
    simp only at hcu
    subst hcu
    rcases menuWait_cases a.endWaitSel ⟨false, false⟩ with h | h | h <;>
      simp [runIteration, runAttemptBody, h1, h2, h3, hb1, hb2, hb3, hbw, hscan, h5,
        h6, h]
  · intro hcu
    simp only at hcu
    subst hcu
    have hscan2 := scanLoop_noCtx a.steps true false h4
    have he : runIteration a ⟨true, false⟩ =
        ⟨progressActions a.steps, .looped ⟨true, false⟩⟩ := by
      simp [runIteration, runAttemptBody, h1, h2, h3, hscan2, h5, h6]
    rw [he]
    exact ⟨rfl, (progressActions_counts a.steps).1⟩

/-- Witness for C6 (amended) in interactive mode. -/
theorem stream_end_without_success_behavior_witness :
    (runIteration (okAttempt [recStep dlRec]) ⟨false, false⟩).actions =
      progressActions [recStep dlRec] ++
        (runIteration ⟨.deflt, none, .errTimeout, .ctxDone, [], .none, .ctxDone, .ctxDone⟩
          ⟨false, false⟩).actions :=
  ((stream_end_without_success_behavior ⟨false, false⟩ (okAttempt [recStep dlRec])
    ⟨.deflt, none, .errTimeout, .ctxDone, [], .none, .ctxDone, .ctxDone⟩ "" rfl rfl rfl
    (by decide) (by decide) rfl rfl rfl rfl rfl rfl).1 rfl).1

/-- C7: every receive site that observes the `"Quit"` decision honours
it at once, closing the channel with zero events after the observation:
the top-of-loop select closes and terminates the run immediately; the
shared decision wait answers `"Quit"` with the close and the return of
the goroutine; and a `"Quit"` observed at the per-line wait during
stream reading, at the `client.Do`-timeout wait, or at the
stream-ended-without-success wait ends the whole run with the close as
the very next and final action. -/
theorem quit_decision_honored :
    (∀ (a : AttemptEnv) (rest : List AttemptEnv) (s : PullState),
      a.topSel = .choice "Quit" →
      runLoop (a :: rest) s = ⟨[Action.close], .terminated⟩) ∧
    (∀ s : PullState, menuWait (.choice "Quit") s = ([Action.close], none)) ∧
    (∀ (l : Option OllamaResponse) (rest : List ScanStep) (df : Bool),
      scanLoop (⟨true, .choice "Quit", l⟩ :: rest) false df =
        ⟨[Action.send TeaMsg.TimeoutMsg, Action.close], false, df, .returned⟩) ∧
    (∀ (a : AttemptEnv) (rest : List AttemptEnv) (s : PullState),
      s.continueUntilComplete = false → a.topSel = .deflt → a.reqErr = none →
      a.doResult = .errTimeout → a.doWaitSel = .choice "Quit" →
      runLoop (a :: rest) s =
        ⟨[Action.send TeaMsg.TimeoutMsg, Action.close], .terminated⟩) ∧
    (∀ (a : AttemptEnv) (rest : List AttemptEnv) (respBody : String),
      a.topSel = .deflt → a.reqErr = none → a.doResult = .ok 200 respBody →
      (∀ st ∈ a.steps, st.ctxDone = false) → hasSuccess a.steps = false →
      a.scanErr = .none → a.endWaitSel = .choice "Quit" →
      runLoop (a :: rest) ⟨false, false⟩ =
        ⟨progressActions a.steps ++ [Action.send TeaMsg.TimeoutMsg, Action.close],
          .terminated⟩) := by
  have hq1 : ¬("Quit" = "Continue (until next error)") := by decide
  have hq2 : ¬("Quit" = "Continue (until download completed)") := by decide
  refine ⟨?_, ?_, ?_, ?_, ?_⟩
  · intro a rest s h
    simp [runLoop, runIteration, h]
  · intro s
    simp [menuWait, hq1, hq2]
  · intro l rest df
    simp [scanLoop, menuWait, hq1, hq2]
  · intro a rest s hcu h1 h2 h3 h4
    simp [runLoop, runIteration, runAttemptBody, menuWait, hcu, h1, h2, h3, h4, hq1, hq2]
  · intro a rest respBody h1 h2 h3 h4 h5 h6 h7
    have hscan := scanLoop_noCtx a.steps false false h4
    simp [runLoop, runIteration, runAttemptBody, menuWait, h1, h2, h3, hscan, h5, h6,
      h7, hq1, hq2]

/-- Witness for C7: a `"Quit"` pending at the top of the loop. -/
theorem quit_decision_honored_witness :
    runLoop [⟨.choice "Quit", none, .errTimeout, .ctxDone, [], .none, .ctxDone, .ctxDone⟩]
        ⟨false, false⟩ = ⟨[Action.close], .terminated⟩ :=
  quit_decision_honored.1
    ⟨.choice "Quit", none, .errTimeout, .ctxDone, [], .none, .ctxDone, .ctxDone⟩ []
    ⟨false, false⟩ rfl

/-- C8: once auto-continue mode is on it is never turned off again.
Within one `PullModel` invocation the retry loop's iteration-entry
states are monotone in the mode flag, so every iteration after the one
that enabled it still runs with it enabled.  At the session level, a
`main`-loop iteration entered with the mode on runs `PullModel` with
the mode on, which surfaces no `TimeoutMsg`; feeding the UI any inputs
whose messages come from that run's trace, the menu is never shown, so
the selection cannot be the mode-resetting single-retry choice and
`main`'s switch leaves the mode on. -/
theorem auto_continue_never_disabled :
    (∀ (atts : List AttemptEnv) (s : PullState)
      (i j : Fin (iterStates atts s).length),
      i ≤ j → ((iterStates atts s).get i).continueUntilComplete = true →
      ((iterStates atts s).get j).continueUntilComplete = true) ∧
    (∀ (env : PullEnv) (ins : List Ui.Input),
      (∀ m, Ui.Input.msg m ∈ ins → Action.send m ∈ (PullModel env true).actions) →
      (Main.choiceUpdate true (Ui.run {} ins).selectedChoice).1 = true) := by
  constructor
  · intro atts s i j hij hi
    rcases eq_or_lt_of_le hij with heq | hlt
    · rw [← heq]; exact hi
    · exact List.pairwise_iff_get.mp (iterStates_pairwise atts s) i j hlt hi
  · intro env ins hsub
    have hnt : timeoutCount (PullModel env true).actions = 0 := by
      obtain ⟨me, atts⟩ := env
      cases me with
      | some e => simp [PullModel, isTimeoutSend]
      | none => exact (runLoop_spec atts ⟨true, false⟩).2.2.2 rfl
    have hnt2 : List.countP isTimeoutSend (PullModel env true).actions = 0 := hnt
    have hnotin : Action.send TeaMsg.TimeoutMsg ∉ (PullModel env true).actions := by
      intro hmem
      have hpos : 0 < List.countP isTimeoutSend (PullModel env true).actions :=
        List.countP_pos_iff.mpr ⟨_, hmem, by simp [isTimeoutSend]⟩
      omega
    have hins : ∀ i ∈ ins, i ≠ Ui.Input.msg TeaMsg.TimeoutMsg := by
      intro i hi heq
      subst heq
      exact hnotin (hsub TeaMsg.TimeoutMsg hi)
    rcases Ui.run_selected_no_timeout ins {} rfl hins with h | h
    · rw [h]; decide
    · rw [h]; decide

/-- Witness for C8 with an empty session trace. -/
theorem auto_continue_never_disabled_witness :
    (Main.choiceUpdate true (Ui.run {} []).selectedChoice).1 = true :=
  auto_continue_never_disabled.2 ⟨none, []⟩ [] (by intro m hm; simp at hm)

/-- C9: within an attempt in which no cancellation preempts the scan,
every scanned line is handled individually: a line that fails to parse
contributes no event and does not end the attempt, and a parsed line is
forwarded as exactly one `ProgressMsg` carrying the record's status,
completed and total fields; the forwarded messages appear in exactly
stream order, and the loop always reaches the end of the stream. -/
theorem stream_lines_forwarded_in_order (steps : List ScanStep) (cUC df : Bool)
    (h : ∀ st ∈ steps, st.ctxDone = false) :
    (scanLoop steps cUC df).actions = progressActions steps ∧
    (scanLoop steps cUC df).outcome = .finished := by
  rw [scanLoop_noCtx steps cUC df h]
  exact ⟨rfl, rfl⟩

/-- Witness for C9: a malformed line followed by a parsed record. -/
theorem stream_lines_forwarded_in_order_witness :
    (scanLoop [⟨false, .ctxDone, none⟩, recStep dlRec] false false).actions =
      progressActions [⟨false, .ctxDone, none⟩, recStep dlRec] ∧
    (scanLoop [⟨false, .ctxDone, none⟩, recStep dlRec] false false).outcome =
      .finished :=
  stream_lines_forwarded_in_order [⟨false, .ctxDone, none⟩, recStep dlRec] false false
    (by decide)

/-- C10: a decision other than `"Quit"` received by the non-blocking
select at the top of the retry loop is consumed and silently discarded:
the iteration equals the iteration taken through the `default` branch —
same events, same mode, same control flow — so an early single-retry or
retry-until-complete answer is lost without effect. -/
theorem early_decision_silently_discarded (a : AttemptEnv) (s : PullState) (c : String)
    (h : c ≠ "Quit") :
    runIteration { a with topSel := .choice c } s =
      runIteration { a with topSel := .deflt } s := by
  simp only [runIteration, h, if_false]
  rfl

/-- Witness for C10: an early retry-until-complete answer is lost. -/
theorem early_decision_silently_discarded_witness :
    runIteration { okAttempt [recStep successRec] with
        topSel := .choice "Continue (until download completed)" } ⟨false, false⟩ =
      runIteration { okAttempt [recStep successRec] with topSel := .deflt }
        ⟨false, false⟩ :=
  early_decision_silently_discarded (okAttempt [recStep successRec]) ⟨false, false⟩
    "Continue (until download completed)" (by decide)

end Client
